import Mathlib

set_option maxHeartbeats 1000000

/-- JSON values as produced by json.loads. JValue.null plays the role of both
JSON null and Python None, which json.loads identifies. -/
inductive JValue where
  | null
  | bool (b : Bool)
  | num (n : Int)
  | str (s : String)
  | arr (elems : List JValue)
  | obj (fields : List (String × JValue))

abbrev JObj := List (String × JValue)

/-- Lookup of a key in a Python dict represented as an insertion-ordered
association list; none means the key is absent. -/
def getField {α : Type} : List (String × α) → String → Option α
  | [], _ => none
  | (k, v) :: rest, key => if k = key then some v else getField rest key

/-- Python dict.get with the default of None: absent keys yield JValue.null. -/
def pyGet (d : JObj) (key : String) : JValue :=
  (getField d key).getD JValue.null

/-- Python dict assignment d[k] = v: replaces the value in place when the key
exists, appends otherwise (insertion order preserved, as for Python dicts). -/
def alInsert {α : Type} : List (String × α) → String → α → List (String × α)
  | [], k, v => [(k, v)]
  | (k0, v0) :: rest, k, v =>
    if k0 = k then (k0, v) :: rest else (k0, v0) :: alInsert rest k v

/-- Keys of a dict in insertion order (Python dict.keys()). -/
def alKeys {α : Type} (d : List (String × α)) : List String := d.map Prod.fst

/-- Python string strict comparison a < b, computed on the character lists
(Lean's order on String is definitionally the lexicographic order on its
character list, and Python compares strings by code points the same way). -/
def strLt (a b : String) : Bool := decide (a.data < b.data)

/-- Python string comparison a <= b. -/
def strLe (a b : String) : Bool := ! strLt b a

theorem strLt_iff {a b : String} : strLt a b = true ↔ a < b := by
  simp [strLt, String.lt_iff_toList_lt, String.toList]

theorem strLe_iff {a b : String} : strLe a b = true ↔ a ≤ b := by
  unfold strLe
  cases h : strLt b a with
  | true =>
    have hba : b < a := strLt_iff.mp h
    simp only [Bool.not_true]
    exact iff_of_false (by simp) (not_le.mpr hba)
  | false =>
    have hba : ¬ b < a := fun hlt => by simp [strLt_iff.mpr hlt] at h
    simp only [Bool.not_false]
    exact iff_of_true (by simp) (not_lt.mp hba)

/-- Embeds _is_valid_ts (src/snapshot/synthdesk_snapshot.py lines 22-28):
the value is a string that contains the character T and ends with Z or with
+00:00 (substring and suffix tests computed on the character lists). -/
def is_valid_ts : JValue → Bool
  | JValue.str s => s.data.contains 'T' && (("Z").data.isSuffixOf s.data || ("+00:00").data.isSuffixOf s.data)
  | _ => false

/-- Embeds _is_newer (src lines 31-37): candidate timestamp beats the stored
entry when there is no stored entry, its timestamp field is not a string, or
the candidate sorts strictly greater lexicographically. -/
def is_newer (timestamp : String) (current : Option JObj) : Bool :=
  match current with
  | none => true
  | some cur =>
    match pyGet cur "timestamp" with
    | JValue.str current_ts => strLt current_ts timestamp
    | _ => true

/-- One line of a log file as seen by the read loop: a blank line, a line on
which json.loads raises JSONDecodeError, or a successfully parsed JSON value. -/
inductive RawLine where
  | blank
  | malformed
  | record (v : JValue)

/-- Regime entry dict constructed at src lines 73-75. -/
def mkRegimeEntry (timestamp regime : String) (payload : JObj) : JObj :=
  let entry : JObj := [("timestamp", JValue.str timestamp), ("regime", JValue.str regime)]
  if (getField payload "confidence").isSome then
    entry ++ [("confidence", pyGet payload "confidence")]
  else entry

/-- Change entry dict constructed at src lines 85-87. -/
def mkChangeEntry (timestamp from_regime to_regime : String) (payload : JObj) : JObj :=
  let entry : JObj := [("timestamp", JValue.str timestamp),
    ("from", JValue.str from_regime), ("to", JValue.str to_regime)]
  if (getField payload "confidence").isSome then
    entry ++ [("confidence", pyGet payload "confidence")]
  else entry

/-- Outcome of the state-independent part of one _parse_event_spine loop
iteration: skip the line, or update one of the two maps with an entry. -/
inductive SpineAction where
  | skip
  | regimeUpd (symbol timestamp : String) (entry : JObj)
  | changeUpd (symbol timestamp : String) (entry : JObj)

/-- Validation pipeline of _parse_event_spine (src lines 45-88) up to the
state-dependent _is_newer test, in source order: blank line, JSON decode,
dict shape, event_type membership, timestamp validity, payload shape, symbol
shape, then the per-kind required fields. -/
def classifySpine (line : RawLine) : SpineAction :=
  match line with
  | RawLine.blank => SpineAction.skip
  | RawLine.malformed => SpineAction.skip
  | RawLine.record v =>
    match v with
    | JValue.obj event =>
      match pyGet event "event_type" with
      | JValue.str event_type =>
        if event_type = "market.regime" ∨ event_type = "market.regime_change" then
          match pyGet event "timestamp" with
          | JValue.str timestamp =>
            if is_valid_ts (JValue.str timestamp) then
              match pyGet event "payload" with
              | JValue.obj payload =>
                match pyGet payload "symbol" with
                | JValue.str symbol =>
                  if event_type = "market.regime" then
                    match pyGet payload "regime" with
                    | JValue.str regime =>
                      SpineAction.regimeUpd symbol timestamp (mkRegimeEntry timestamp regime payload)
                    | _ => SpineAction.skip
                  else
                    match pyGet payload "from", pyGet payload "to" with
                    | JValue.str from_regime, JValue.str to_regime =>
                      SpineAction.changeUpd symbol timestamp
                        (mkChangeEntry timestamp from_regime to_regime payload)
                    | _, _ => SpineAction.skip
                | _ => SpineAction.skip
              | _ => SpineAction.skip
            else SpineAction.skip
          | _ => SpineAction.skip
        else SpineAction.skip
      | _ => SpineAction.skip
    | _ => SpineAction.skip

/-- The two mutable maps of the _parse_event_spine loop. -/
structure SpineState where
  regimes : List (String × JObj)
  changes : List (String × JObj)

def initSpineState : SpineState := ⟨[], []⟩

/-- One iteration of the _parse_event_spine loop (src lines 45-88). -/
def spineStep (st : SpineState) (line : RawLine) : SpineState :=
  match classifySpine line with
  | SpineAction.skip => st
  | SpineAction.regimeUpd symbol timestamp entry =>
    if is_newer timestamp (getField st.regimes symbol) then
      { st with regimes := alInsert st.regimes symbol entry }
    else st
  | SpineAction.changeUpd symbol timestamp entry =>
    if is_newer timestamp (getField st.changes symbol) then
      { st with changes := alInsert st.changes symbol entry }
    else st

def foldSpine (lines : List RawLine) : SpineState :=
  lines.foldl spineStep initSpineState

abbrev SpineDict := List (String × (List (String × JObj)))

/-- Join of the two maps at src lines 91-98: iterate latest_regime_by_symbol,
attach the change entry when one exists for the same symbol. -/
def spineFolded (st : SpineState) : SpineDict :=
  st.regimes.map (fun p =>
    (p.1,
      match getField st.changes p.1 with
      | some change_entry => [("market.regime", p.2), ("market.regime_change", change_entry)]
      | none => [("market.regime", p.2)]))

/-- Content of a log file as seen by a fold: either every line is read, or an
OSError occurs while opening or reading it. The try block at src lines 43-90
and 104-139 discards all state on any OSError, wherever it strikes, so a
single failure constructor captures every such run. -/
inductive LogFile where
  | ioFailure
  | content (lines : List RawLine)

/-- Embeds _parse_event_spine (src lines 40-98). -/
def parse_event_spine : LogFile → SpineDict
  | LogFile.ioFailure => []
  | LogFile.content lines => spineFolded (foldSpine lines)

/-- Intent-body resolution at src lines 118-122: the payload field first, the
intent field second, the first map-shaped value wins. -/
def resolve_intent (record : JObj) : Option JObj :=
  match pyGet record "payload" with
  | JValue.obj p => some p
  | _ =>
    match pyGet record "intent" with
    | JValue.obj i => some i
    | _ => none

/-- Entity-key resolution at src lines 123-127: the top-level symbol field
first, then the symbol field nested in the chosen intent body. -/
def resolve_symbol (record : JObj) (intent : JObj) : Option String :=
  match pyGet record "symbol" with
  | JValue.str s => some s
  | _ =>
    match pyGet intent "symbol" with
    | JValue.str s => some s
    | _ => none

/-- Intent entry stored at src lines 132-137: the four fields are copied with
dict.get, so a field absent from the body is stored as None. -/
def mkIntentEntry (intent : JObj) : JObj :=
  [("direction", pyGet intent "direction"),
   ("size_pct", pyGet intent "size_pct"),
   ("risk_cap", pyGet intent "risk_cap"),
   ("rationale", pyGet intent "rationale")]

/-- Outcome of the state-independent part of one _parse_router_intents loop
iteration. -/
inductive IntentAction where
  | skip
  | upd (symbol timestamp : String) (entry : JObj)

/-- Validation pipeline of _parse_router_intents (src lines 106-127) up to the
state-dependent timestamp test. -/
def classifyIntent (line : RawLine) : IntentAction :=
  match line with
  | RawLine.blank => IntentAction.skip
  | RawLine.malformed => IntentAction.skip
  | RawLine.record v =>
    match v with
    | JValue.obj record =>
      match pyGet record "timestamp" with
      | JValue.str timestamp =>
        if is_valid_ts (JValue.str timestamp) then
          match resolve_intent record with
          | some intent =>
            match resolve_symbol record intent with
            | some symbol => IntentAction.upd symbol timestamp (mkIntentEntry intent)
            | none => IntentAction.skip
          | none => IntentAction.skip
        else IntentAction.skip
      | _ => IntentAction.skip
    | _ => IntentAction.skip

/-- The two mutable maps of the _parse_router_intents loop. -/
structure IntentState where
  intents : List (String × JObj)
  tss : List (String × String)

def initIntentState : IntentState := ⟨[], []⟩

/-- One iteration of the _parse_router_intents loop (src lines 106-137); the
tie test at line 129 skips when the candidate is less than or equal to the
tracked timestamp. -/
def intentStep (st : IntentState) (line : RawLine) : IntentState :=
  match classifyIntent line with
  | IntentAction.skip => st
  | IntentAction.upd symbol timestamp entry =>
    match getField st.tss symbol with
    | some current_ts =>
      if strLe timestamp current_ts then st
      else { intents := alInsert st.intents symbol entry,
             tss := alInsert st.tss symbol timestamp }
    | none =>
      { intents := alInsert st.intents symbol entry,
        tss := alInsert st.tss symbol timestamp }

def foldIntents (lines : List RawLine) : IntentState :=
  lines.foldl intentStep initIntentState

/-- Embeds _parse_router_intents (src lines 101-140). -/
def parse_router_intents : LogFile → List (String × JObj)
  | LogFile.ioFailure => []
  | LogFile.content lines => (foldIntents lines).intents

/-- Python single-quote character, used by repr of strings. -/
def pyQuote : String := String.singleton (Char.ofNat 39)

/-- Python repr restricted to json.loads values. Escaping inside reprs of
strings is not modelled; no record in this development reprs a string that
needs escapes, and the assembler only formats values checked non-null. -/
def pyRepr : JValue → String
  | JValue.null => "None"
  | JValue.bool true => "True"
  | JValue.bool false => "False"
  | JValue.num n => toString n
  | JValue.str s => pyQuote ++ s ++ pyQuote
  | JValue.arr elems =>
    "[" ++ String.intercalate ", " (elems.attach.map (fun e => pyRepr e.1)) ++ "]"
  | JValue.obj fields =>
    "\x7b" ++ String.intercalate ", "
      (fields.attach.map (fun f => pyQuote ++ f.1.1 ++ pyQuote ++ ": " ++ pyRepr f.1.2)) ++ "\x7d"
termination_by v => sizeOf v
decreasing_by
  · have h := List.sizeOf_lt_of_mem e.2
    simp only [JValue.arr.sizeOf_spec]
    omega
  · have h := List.sizeOf_lt_of_mem f.2
    obtain ⟨⟨k, v⟩, hv⟩ := f
    simp only [JValue.obj.sizeOf_spec, Prod.mk.sizeOf_spec] at h ⊢
    omega

/-- Python str(): identity on strings, repr on every other json.loads value. -/
def pyStr : JValue → String
  | JValue.str s => s
  | JValue.null => "None"
  | JValue.bool true => "True"
  | JValue.bool false => "False"
  | JValue.num n => toString n
  | v => pyRepr v

/-- Change summary f-string at src line 162. -/
def formatChange (change_from change_to change_ts : JValue) : String :=
  pyStr change_from ++ " -> " ++ pyStr change_to ++ " @ " ++ pyStr change_ts

/-- One element of the entries list built at src lines 177-188. Fields hold
the Python values placed in the dict; JValue.null stands for Python None. -/
structure SnapshotEntry where
  symbol : String
  regime : JValue
  regime_ts : JValue
  change_value : String
  direction : JValue
  size_pct : JValue
  risk_cap : JValue
  rationale : JValue

/-- Embeds the per-symbol body of _build_snapshot_entries (src lines 150-188). -/
def build_snapshot_entry (spine_summary : SpineDict)
    (intent_summary : List (String × JObj)) (symbol : String) : SnapshotEntry :=
  let symbol_entry : List (String × JObj) := (getField spine_summary symbol).getD []
  let regime_entry : Option JObj := getField symbol_entry "market.regime"
  let change_entry : Option JObj := getField symbol_entry "market.regime_change"
  let intent_entry : Option JObj := getField intent_summary symbol
  let regime : JValue :=
    match regime_entry with
    | some e => pyGet e "regime"
    | none => JValue.str "—"
  let regime_ts : JValue :=
    match regime_entry with
    | some e => pyGet e "timestamp"
    | none => JValue.str "—"
  let change_from : JValue :=
    match change_entry with
    | some e => pyGet e "from"
    | none => JValue.null
  let change_to : JValue :=
    match change_entry with
    | some e => pyGet e "to"
    | none => JValue.null
  let change_ts : JValue :=
    match change_entry with
    | some e => pyGet e "timestamp"
    | none => JValue.str "—"
  let change_value : String :=
    match change_from, change_to with
    | JValue.null, _ => "—"
    | _, JValue.null => "—"
    | _, _ => formatChange change_from change_to change_ts
  let direction : JValue :=
    match intent_entry with
    | some e => (getField e "direction").getD (JValue.str "—")
    | none => JValue.str "—"
  let size_pct : JValue :=
    match intent_entry with
    | some e => (getField e "size_pct").getD (JValue.str "—")
    | none => JValue.str "—"
  let risk_cap : JValue :=
    match intent_entry with
    | some e => (getField e "risk_cap").getD (JValue.str "—")
    | none => JValue.str "—"
  let rationale : JValue :=
    match intent_entry with
    | some e => pyGet e "rationale"
    | none => JValue.null
  { symbol := symbol, regime := regime, regime_ts := regime_ts,
    change_value := change_value, direction := direction,
    size_pct := size_pct, risk_cap := risk_cap, rationale := rationale }

/-- Embeds _build_snapshot_entries (src lines 143-189). -/
def build_snapshot_entries (symbols : List String) (spine_summary : SpineDict)
    (intent_summary : List (String × JObj)) : List SnapshotEntry :=
  symbols.map (build_snapshot_entry spine_summary intent_summary)

/-- Model of sorted at src line 290 applied to the union of the key sets:
the lexicographically sorted duplicate-free union. -/
def sortedUnion (a b : List String) : List String :=
  List.insertionSort (fun s t => strLe s t = true) ((a ++ b).dedup)

/-- Filesystem visible to main: Path.exists plus, when present, the content a
fold will see when it opens the path. -/
inductive PathStatus where
  | absent
  | present (file : LogFile)

/-- Embeds main (src lines 278-300) up to rendering. The argv list is the
full sys.argv (argv[0] the program name). The result is none exactly when
main returns without writing anything; otherwise it is the assembled entries
handed to every renderer (the wall-clock header timestamp and the choice of
renderer are formatting only and are not modelled). -/
def mainResult (argv : List String) (fs : String → PathStatus) : Option (List SnapshotEntry) :=
  match argv with
  | _prog :: event_spine_path :: router_intents_path :: _rest =>
    match fs event_spine_path with
    | PathStatus.absent => none
    | PathStatus.present event_file =>
      let spine_summary := parse_event_spine event_file
      let intent_summary :=
        match fs router_intents_path with
        | PathStatus.present intent_file => parse_router_intents intent_file
        | PathStatus.absent => []
      let symbols := sortedUnion (alKeys spine_summary) (alKeys intent_summary)
      some (build_snapshot_entries symbols spine_summary intent_summary)
  | _ => none

theorem getField_alInsert_self {α : Type} (d : List (String × α)) (k : String) (v : α) :
    getField (alInsert d k v) k = some v := by
  induction d with
  | nil => simp [alInsert, getField]
  | cons p rest ih =>
    obtain ⟨k0, v0⟩ := p
    by_cases h : k0 = k
    · simp [alInsert, getField, h]
    · simp [alInsert, getField, h, ih]

theorem getField_alInsert_ne {α : Type} (d : List (String × α)) (k k2 : String) (v : α)
    (h : k2 ≠ k) : getField (alInsert d k v) k2 = getField d k2 := by
  induction d with
  | nil =>
    simp only [alInsert, getField]
    rw [if_neg fun hh => h hh.symm]
  | cons p rest ih =>
    obtain ⟨k0, v0⟩ := p
    by_cases h0 : k0 = k
    · subst h0
      have hne : ¬ k0 = k2 := fun hh => h hh.symm
      simp [alInsert, getField, hne]
    · simp [alInsert, getField, h0, ih]

/-- Candidate that the regime map sees from a line, for a fixed symbol. -/
def regimeCand (symbol : String) (line : RawLine) : Option (String × JObj) :=
  match classifySpine line with
  | SpineAction.regimeUpd s ts e => if s = symbol then some (ts, e) else none
  | _ => none

/-- Candidate that the change map sees from a line, for a fixed symbol. -/
def changeCand (symbol : String) (line : RawLine) : Option (String × JObj) :=
  match classifySpine line with
  | SpineAction.changeUpd s ts e => if s = symbol then some (ts, e) else none
  | _ => none

/-- Candidate that the intent fold sees from a line, for a fixed symbol. -/
def intentCand (symbol : String) (line : RawLine) : Option (String × JObj) :=
  match classifyIntent line with
  | IntentAction.upd s ts e => if s = symbol then some (ts, e) else none
  | _ => none

/-- Per-symbol latest-wins reduction step shared by the two spine maps. -/
def bestStep (cur : Option JObj) (c : String × JObj) : Option JObj :=
  if is_newer c.1 cur then some c.2 else cur

/-- Per-symbol reduction step of the intent fold; the state pairs the stored
entry with the timestamp tracked in latest_ts_by_symbol. -/
def intentBestStep (cur : Option JObj × Option String) (c : String × JObj) :
    Option JObj × Option String :=
  match cur.2 with
  | some t => if strLe c.1 t then cur else (some c.2, some c.1)
  | none => (some c.2, some c.1)

theorem spineStep_regimes_getField (st : SpineState) (line : RawLine) (symbol : String) :
    getField (spineStep st line).regimes symbol
      = (match regimeCand symbol line with
        | some c => bestStep (getField st.regimes symbol) c
        | none => getField st.regimes symbol) := by
  rcases hc : classifySpine line with _ | ⟨s, ts, e⟩ | ⟨s, ts, e⟩
  · simp [spineStep, regimeCand, hc]
  · by_cases hs : s = symbol
    · subst hs
      simp only [spineStep, regimeCand, hc, if_pos rfl, bestStep]
      by_cases hn : is_newer ts (getField st.regimes s) = true
      · simp [hn, getField_alInsert_self]
      · simp [Bool.of_not_eq_true hn, hn]
    · simp only [spineStep, regimeCand, hc, if_neg hs]
      by_cases hn : is_newer ts (getField st.regimes s) = true
      · simp [hn, getField_alInsert_ne _ _ _ _ (fun hh => hs hh.symm)]
      · simp [Bool.of_not_eq_true hn]
  · simp [spineStep, regimeCand, hc]
    split <;> rfl

theorem spineStep_changes_getField (st : SpineState) (line : RawLine) (symbol : String) :
    getField (spineStep st line).changes symbol
      = (match changeCand symbol line with
        | some c => bestStep (getField st.changes symbol) c
        | none => getField st.changes symbol) := by
  rcases hc : classifySpine line with _ | ⟨s, ts, e⟩ | ⟨s, ts, e⟩
  · simp [spineStep, changeCand, hc]
  · simp [spineStep, changeCand, hc]
    split <;> rfl
  · by_cases hs : s = symbol
    · subst hs
      simp only [spineStep, changeCand, hc, if_pos rfl, bestStep]
      by_cases hn : is_newer ts (getField st.changes s) = true
      · simp [hn, getField_alInsert_self]
      · simp [Bool.of_not_eq_true hn, hn]
    · simp only [spineStep, changeCand, hc, if_neg hs]
      by_cases hn : is_newer ts (getField st.changes s) = true
      · simp [hn, getField_alInsert_ne _ _ _ _ (fun hh => hs hh.symm)]
      · simp [Bool.of_not_eq_true hn]

theorem intentStep_getField (st : IntentState) (line : RawLine) (symbol : String) :
    (getField (intentStep st line).intents symbol, getField (intentStep st line).tss symbol)
      = (match intentCand symbol line with
        | some c => intentBestStep (getField st.intents symbol, getField st.tss symbol) c
        | none => (getField st.intents symbol, getField st.tss symbol)) := by
  rcases hc : classifyIntent line with _ | ⟨s, ts, e⟩
  · simp [intentStep, intentCand, hc]
  · by_cases hs : s = symbol
    · subst hs
      simp only [intentStep, intentCand, hc, if_pos rfl, intentBestStep]
      rcases ht : getField st.tss s with _ | t
      · simp [ht, getField_alInsert_self]
      · by_cases hle : strLe ts t = true
        · simp [ht, hle]
        · simp [ht, Bool.of_not_eq_true hle, getField_alInsert_self]
    · simp only [intentStep, intentCand, hc, if_neg hs]
      have hne : symbol ≠ s := fun hh => hs hh.symm
      rcases ht : getField st.tss s with _ | t
      · simp [getField_alInsert_ne _ _ _ _ hne]
      · by_cases hle : strLe ts t = true
        · simp [hle]
        · simp [Bool.of_not_eq_true hle, getField_alInsert_ne _ _ _ _ hne]

theorem spine_regimes_factor (lines : List RawLine) (symbol : String) : ∀ st : SpineState,
    getField (lines.foldl spineStep st).regimes symbol
      = (lines.filterMap (regimeCand symbol)).foldl bestStep (getField st.regimes symbol) := by
  induction lines with
  | nil => intro st; rfl
  | cons line rest ih =>
    intro st
    rw [List.foldl_cons, ih (spineStep st line), List.filterMap_cons]
    rcases hc : regimeCand symbol line with _ | c
    · rw [spineStep_regimes_getField, hc]
    · rw [spineStep_regimes_getField, hc, List.foldl_cons]

theorem spine_changes_factor (lines : List RawLine) (symbol : String) : ∀ st : SpineState,
    getField (lines.foldl spineStep st).changes symbol
      = (lines.filterMap (changeCand symbol)).foldl bestStep (getField st.changes symbol) := by
  induction lines with
  | nil => intro st; rfl
  | cons line rest ih =>
    intro st
    rw [List.foldl_cons, ih (spineStep st line), List.filterMap_cons]
    rcases hc : changeCand symbol line with _ | c
    · rw [spineStep_changes_getField, hc]
    · rw [spineStep_changes_getField, hc, List.foldl_cons]

theorem intent_factor (lines : List RawLine) (symbol : String) : ∀ st : IntentState,
    (getField (lines.foldl intentStep st).intents symbol,
      getField (lines.foldl intentStep st).tss symbol)
      = (lines.filterMap (intentCand symbol)).foldl intentBestStep
          (getField st.intents symbol, getField st.tss symbol) := by
  induction lines with
  | nil => intro st; rfl
  | cons line rest ih =>
    intro st
    rw [List.foldl_cons, ih (intentStep st line), List.filterMap_cons]
    rcases hc : intentCand symbol line with _ | c
    · rw [intentStep_getField, hc]
    · rw [intentStep_getField, hc, List.foldl_cons]

theorem getField_map_keys {β γ : Type} (g : String → β → γ) (l : List (String × β))
    (symbol : String) :
    getField (l.map (fun p => (p.1, g p.1 p.2))) symbol = (getField l symbol).map (g symbol) := by
  induction l with
  | nil => rfl
  | cons p rest ih =>
    obtain ⟨k, v⟩ := p
    by_cases h : k = symbol
    · subst h
      simp [getField]
    · simp [getField, h, ih]

theorem getField_spineFolded (st : SpineState) (symbol : String) :
    getField (spineFolded st) symbol
      = (getField st.regimes symbol).map (fun re =>
          match getField st.changes symbol with
          | some ce => [("market.regime", re), ("market.regime_change", ce)]
          | none => [("market.regime", re)]) := by
  unfold spineFolded
  exact getField_map_keys
    (fun k re =>
      match getField st.changes k with
      | some ce => [("market.regime", re), ("market.regime_change", ce)]
      | none => [("market.regime", re)]) st.regimes symbol

theorem classifySpine_regime_inv {line : RawLine} {s ts : String} {e : JObj}
    (h : classifySpine line = SpineAction.regimeUpd s ts e) :
    ∃ regime payload, e = mkRegimeEntry ts regime payload := by
  unfold classifySpine at h
  repeat' split at h
  all_goals cases h
  exact ⟨_, _, rfl⟩

theorem classifySpine_change_inv {line : RawLine} {s ts : String} {e : JObj}
    (h : classifySpine line = SpineAction.changeUpd s ts e) :
    ∃ f t payload, e = mkChangeEntry ts f t payload := by
  unfold classifySpine at h
  repeat' split at h
  all_goals cases h
  exact ⟨_, _, _, rfl⟩

theorem mkRegimeEntry_ts (ts regime : String) (payload : JObj) :
    pyGet (mkRegimeEntry ts regime payload) "timestamp" = JValue.str ts := by
  unfold mkRegimeEntry
  split <;> simp [pyGet, getField]

theorem mkChangeEntry_ts (ts f t : String) (payload : JObj) :
    pyGet (mkChangeEntry ts f t payload) "timestamp" = JValue.str ts := by
  unfold mkChangeEntry
  split <;> simp [pyGet, getField]

theorem regimeCand_ts {symbol : String} {line : RawLine} {c : String × JObj}
    (h : regimeCand symbol line = some c) : pyGet c.2 "timestamp" = JValue.str c.1 := by
  unfold regimeCand at h
  split at h
  case _ s ts e heq =>
    split at h
    · cases h
      obtain ⟨r, p, hrp⟩ := classifySpine_regime_inv heq
      simpa [hrp] using mkRegimeEntry_ts ts r p
    · cases h
  · cases h

theorem changeCand_ts {symbol : String} {line : RawLine} {c : String × JObj}
    (h : changeCand symbol line = some c) : pyGet c.2 "timestamp" = JValue.str c.1 := by
  unfold changeCand at h
  split at h
  case _ s ts e heq =>
    split at h
    · cases h
      obtain ⟨f, t, p, hrp⟩ := classifySpine_change_inv heq
      simpa [hrp] using mkChangeEntry_ts ts f t p
    · cases h
  · cases h

theorem strLt_eq_false {a b : String} : strLt a b = false ↔ ¬ a < b := by
  rw [← strLt_iff]
  cases strLt a b <;> simp

theorem strLe_eq_false {a b : String} : strLe a b = false ↔ ¬ a ≤ b := by
  rw [← strLe_iff]
  cases strLe a b <;> simp

theorem bestStep_comm_lt {x y : String × JObj}
    (hx : pyGet x.2 "timestamp" = JValue.str x.1)
    (hy : pyGet y.2 "timestamp" = JValue.str y.1)
    (hlt : x.1 < y.1) (z : Option JObj) :
    bestStep (bestStep z x) y = bestStep (bestStep z y) x := by
  obtain ⟨xts, xe⟩ := x
  obtain ⟨yts, ye⟩ := y
  simp only at hx hy hlt
  have hxyT : strLt xts yts = true := strLt_iff.mpr hlt
  have hyxF : strLt yts xts = false := strLt_eq_false.mpr (lt_asymm hlt)
  cases z with
  | none => simp [bestStep, is_newer, hx, hy, hxyT, hyxF]
  | some z0 =>
    rcases hz : pyGet z0 "timestamp" with _ | b | n | c | el | fl
    · simp [bestStep, is_newer, hx, hy, hz, hxyT, hyxF]
    · simp [bestStep, is_newer, hx, hy, hz, hxyT, hyxF]
    · simp [bestStep, is_newer, hx, hy, hz, hxyT, hyxF]
    · by_cases hc : strLt c xts = true
      · have hcy : strLt c yts = true := strLt_iff.mpr (lt_trans (strLt_iff.mp hc) hlt)
        simp [bestStep, is_newer, hx, hy, hz, hc, hcy, hxyT, hyxF]
      · have hcF : strLt c xts = false := Bool.of_not_eq_true hc
        by_cases hcy : strLt c yts = true
        · simp [bestStep, is_newer, hx, hy, hz, hcF, hcy, hyxF]
        · simp [bestStep, is_newer, hx, hy, hz, hcF, Bool.of_not_eq_true hcy]
    · simp [bestStep, is_newer, hx, hy, hz, hxyT, hyxF]
    · simp [bestStep, is_newer, hx, hy, hz, hxyT, hyxF]

theorem bestStep_comm {x y : String × JObj}
    (hx : pyGet x.2 "timestamp" = JValue.str x.1)
    (hy : pyGet y.2 "timestamp" = JValue.str y.1)
    (hne : x.1 ≠ y.1) (z : Option JObj) :
    bestStep (bestStep z x) y = bestStep (bestStep z y) x := by
  rcases lt_or_gt_of_ne hne with hlt | hlt
  · exact bestStep_comm_lt hx hy hlt z
  · exact (bestStep_comm_lt hy hx hlt z).symm

theorem intentBestStep_comm_lt {x y : String × JObj} (hlt : x.1 < y.1)
    (z : Option JObj × Option String) :
    intentBestStep (intentBestStep z x) y = intentBestStep (intentBestStep z y) x := by
  obtain ⟨xts, xe⟩ := x
  obtain ⟨yts, ye⟩ := y
  simp only at hlt
  obtain ⟨ze, zt⟩ := z
  have hxyF : strLe yts xts = false := strLe_eq_false.mpr (not_le.mpr hlt)
  have hyxT : strLe xts yts = true := strLe_iff.mpr (le_of_lt hlt)
  cases zt with
  | none => simp [intentBestStep, hxyF, hyxT]
  | some t =>
    by_cases hxt : strLe xts t = true
    · by_cases hyt : strLe yts t = true
      · simp [intentBestStep, hxt, hyt]
      · simp [intentBestStep, hxt, Bool.of_not_eq_true hyt, hyxT]
    · have htx : t < xts := not_le.mp (fun hle => hxt (strLe_iff.mpr hle))
      have hyt : strLe yts t = false :=
        strLe_eq_false.mpr (fun hle => absurd (lt_of_lt_of_le (lt_trans htx hlt) hle) (lt_irrefl t))
      simp [intentBestStep, Bool.of_not_eq_true hxt, hyt, hxyF, hyxT]

theorem intentBestStep_comm {x y : String × JObj} (hne : x.1 ≠ y.1)
    (z : Option JObj × Option String) :
    intentBestStep (intentBestStep z x) y = intentBestStep (intentBestStep z y) x := by
  rcases lt_or_gt_of_ne hne with hlt | hlt
  · exact intentBestStep_comm_lt hlt z
  · exact (intentBestStep_comm_lt hlt z).symm

/-- The entity key and timestamp of a record that the regime fold accepts as
a candidate (for either event kind); none for skipped lines. -/
def spineKeyTs (line : RawLine) : Option (String × String) :=
  match classifySpine line with
  | SpineAction.regimeUpd s ts _ => some (s, ts)
  | SpineAction.changeUpd s ts _ => some (s, ts)
  | SpineAction.skip => none

/-- The entity key and timestamp of a record that the intent fold accepts as
a candidate; none for skipped lines. -/
def intentKeyTs (line : RawLine) : Option (String × String) :=
  match classifyIntent line with
  | IntentAction.upd s ts _ => some (s, ts)
  | IntentAction.skip => none

/-- No two accepted records carry an identical timestamp for the same entity. -/
abbrev distinctTsPerEntity (ps : List (String × String)) : Prop :=
  ps.Pairwise (fun a b => a.1 = b.1 → a.2 ≠ b.2)

theorem regimeCand_keyTs {symbol : String} {line : RawLine} {c : String × JObj}
    (h : regimeCand symbol line = some c) : spineKeyTs line = some (symbol, c.1) := by
  unfold regimeCand at h
  unfold spineKeyTs
  split at h
  case _ s ts e heq =>
    rw [heq]
    split at h
    case isTrue hs => cases h; subst hs; rfl
    case isFalse hs => cases h
  · cases h

theorem changeCand_keyTs {symbol : String} {line : RawLine} {c : String × JObj}
    (h : changeCand symbol line = some c) : spineKeyTs line = some (symbol, c.1) := by
  unfold changeCand at h
  unfold spineKeyTs
  split at h
  case _ s ts e heq =>
    rw [heq]
    split at h
    case isTrue hs => cases h; subst hs; rfl
    case isFalse hs => cases h
  · cases h

theorem intentCand_keyTs {symbol : String} {line : RawLine} {c : String × JObj}
    (h : intentCand symbol line = some c) : intentKeyTs line = some (symbol, c.1) := by
  unfold intentCand at h
  unfold intentKeyTs
  split at h
  case _ s ts e heq =>
    rw [heq]
    split at h
    case isTrue hs => cases h; subst hs; rfl
    case isFalse hs => cases h
  · cases h

theorem regimeCand_pairwise {l : List RawLine} (symbol : String)
    (h : distinctTsPerEntity (l.filterMap spineKeyTs)) :
    (l.filterMap (regimeCand symbol)).Pairwise (fun a b => a.1 ≠ b.1) := by
  unfold distinctTsPerEntity at h
  rw [List.pairwise_filterMap] at h ⊢
  refine h.imp ?_
  intro a b hab c hc d hd
  have hka := regimeCand_keyTs (Option.mem_def.mp hc)
  have hkb := regimeCand_keyTs (Option.mem_def.mp hd)
  exact hab (symbol, c.1) (by simp [hka]) (symbol, d.1) (by simp [hkb]) rfl

theorem changeCand_pairwise {l : List RawLine} (symbol : String)
    (h : distinctTsPerEntity (l.filterMap spineKeyTs)) :
    (l.filterMap (changeCand symbol)).Pairwise (fun a b => a.1 ≠ b.1) := by
  unfold distinctTsPerEntity at h
  rw [List.pairwise_filterMap] at h ⊢
  refine h.imp ?_
  intro a b hab c hc d hd
  have hka := changeCand_keyTs (Option.mem_def.mp hc)
  have hkb := changeCand_keyTs (Option.mem_def.mp hd)
  exact hab (symbol, c.1) (by simp [hka]) (symbol, d.1) (by simp [hkb]) rfl

theorem intentCand_pairwise {l : List RawLine} (symbol : String)
    (h : distinctTsPerEntity (l.filterMap intentKeyTs)) :
    (l.filterMap (intentCand symbol)).Pairwise (fun a b => a.1 ≠ b.1) := by
  unfold distinctTsPerEntity at h
  rw [List.pairwise_filterMap] at h ⊢
  refine h.imp ?_
  intro a b hab c hc d hd
  have hka := intentCand_keyTs (Option.mem_def.mp hc)
  have hkb := intentCand_keyTs (Option.mem_def.mp hd)
  exact hab (symbol, c.1) (by simp [hka]) (symbol, d.1) (by simp [hkb]) rfl

theorem mem_regimeCand_ts {symbol : String} {l : List RawLine} {c : String × JObj}
    (h : c ∈ l.filterMap (regimeCand symbol)) : pyGet c.2 "timestamp" = JValue.str c.1 := by
  rw [List.mem_filterMap] at h
  obtain ⟨line, _, hline⟩ := h
  exact regimeCand_ts hline

theorem mem_changeCand_ts {symbol : String} {l : List RawLine} {c : String × JObj}
    (h : c ∈ l.filterMap (changeCand symbol)) : pyGet c.2 "timestamp" = JValue.str c.1 := by
  rw [List.mem_filterMap] at h
  obtain ⟨line, _, hline⟩ := h
  exact changeCand_ts hline

theorem regimes_perm_eq {l1 l2 : List RawLine} (hp : l1.Perm l2)
    (hd : distinctTsPerEntity (l1.filterMap spineKeyTs)) (symbol : String) :
    getField (foldSpine l1).regimes symbol = getField (foldSpine l2).regimes symbol := by
  unfold foldSpine
  rw [spine_regimes_factor, spine_regimes_factor]
  refine (hp.filterMap (regimeCand symbol)).foldl_eq' ?_ _
  intro x hx y hy z
  by_cases hxy : x = y
  · subst hxy; rfl
  · have hne : x.1 ≠ y.1 :=
      List.Pairwise.forall (fun _ _ h => h.symm) (regimeCand_pairwise symbol hd) hx hy hxy
    exact bestStep_comm (mem_regimeCand_ts hx) (mem_regimeCand_ts hy) hne z

theorem changes_perm_eq {l1 l2 : List RawLine} (hp : l1.Perm l2)
    (hd : distinctTsPerEntity (l1.filterMap spineKeyTs)) (symbol : String) :
    getField (foldSpine l1).changes symbol = getField (foldSpine l2).changes symbol := by
  unfold foldSpine
  rw [spine_changes_factor, spine_changes_factor]
  refine (hp.filterMap (changeCand symbol)).foldl_eq' ?_ _
  intro x hx y hy z
  by_cases hxy : x = y
  · subst hxy; rfl
  · have hne : x.1 ≠ y.1 :=
      List.Pairwise.forall (fun _ _ h => h.symm) (changeCand_pairwise symbol hd) hx hy hxy
    exact bestStep_comm (mem_changeCand_ts hx) (mem_changeCand_ts hy) hne z

theorem intents_perm_eq {l1 l2 : List RawLine} (hp : l1.Perm l2)
    (hd : distinctTsPerEntity (l1.filterMap intentKeyTs)) (symbol : String) :
    getField (foldIntents l1).intents symbol = getField (foldIntents l2).intents symbol := by
  unfold foldIntents
  have hpair := intent_factor l1 symbol initIntentState
  have hpair2 := intent_factor l2 symbol initIntentState
  have hfold : (l1.filterMap (intentCand symbol)).foldl intentBestStep
        (getField initIntentState.intents symbol, getField initIntentState.tss symbol)
      = (l2.filterMap (intentCand symbol)).foldl intentBestStep
        (getField initIntentState.intents symbol, getField initIntentState.tss symbol) := by
    refine (hp.filterMap (intentCand symbol)).foldl_eq' ?_ _
    intro x hx y hy z
    by_cases hxy : x = y
    · subst hxy; rfl
    · have hne : x.1 ≠ y.1 :=
        List.Pairwise.forall (fun _ _ h => h.symm) (intentCand_pairwise symbol hd) hx hy hxy
      exact intentBestStep_comm hne z
  have := hpair.trans (hfold.trans hpair2.symm)
  exact congrArg Prod.fst this

/-- Test fixture: a market.regime event line, as json.loads parses it. -/
def regimeRecord (symbol ts regime : String) : RawLine :=
  RawLine.record (JValue.obj
    [("event_type", JValue.str "market.regime"),
     ("timestamp", JValue.str ts),
     ("payload", JValue.obj [("symbol", JValue.str symbol), ("regime", JValue.str regime)])])

/-- Test fixture: a market.regime_change event line, as json.loads parses it. -/
def changeRecord (symbol ts from_regime to_regime : String) : RawLine :=
  RawLine.record (JValue.obj
    [("event_type", JValue.str "market.regime_change"),
     ("timestamp", JValue.str ts),
     ("payload", JValue.obj [("symbol", JValue.str symbol),
       ("from", JValue.str from_regime), ("to", JValue.str to_regime)])])

/-- Test fixture: an intent line with top-level symbol and payload body. -/
def intentRecord (symbol ts direction : String) : RawLine :=
  RawLine.record (JValue.obj
    [("timestamp", JValue.str ts),
     ("symbol", JValue.str symbol),
     ("payload", JValue.obj [("direction", JValue.str direction)])])

/-- Claim C5 (confirmed): for all valid timestamp strings A and B with A < B
under lexicographic string ordering, _is_newer(B, dict with timestamp A) is
true and _is_newer(A, dict with timestamp B) is false. -/
theorem C5_is_newer_lex (A B : String)
    (hA : is_valid_ts (JValue.str A) = true) (hB : is_valid_ts (JValue.str B) = true)
    (hAB : A < B) :
    is_newer B (some [("timestamp", JValue.str A)]) = true
    ∧ is_newer A (some [("timestamp", JValue.str B)]) = false := by
  constructor
  · show strLt A B = true
    exact strLt_iff.mpr hAB
  · show strLt B A = false
    exact strLt_eq_false.mpr (lt_asymm hAB)

/-- Witness for C5 at the concrete timestamps 2024-01-01T00:00:00Z and
2024-01-02T00:00:00Z. -/
theorem C5_is_newer_lex_witness :
    (is_valid_ts (JValue.str "2024-01-01T00:00:00Z") = true
      ∧ is_valid_ts (JValue.str "2024-01-02T00:00:00Z") = true
      ∧ "2024-01-01T00:00:00Z" < "2024-01-02T00:00:00Z")
    ∧ is_newer "2024-01-02T00:00:00Z" (some [("timestamp", JValue.str "2024-01-01T00:00:00Z")]) = true
    ∧ is_newer "2024-01-01T00:00:00Z" (some [("timestamp", JValue.str "2024-01-02T00:00:00Z")]) = false :=
  ⟨⟨rfl, rfl, strLt_iff.mp rfl⟩,
   C5_is_newer_lex "2024-01-01T00:00:00Z" "2024-01-02T00:00:00Z" rfl rfl (strLt_iff.mp rfl)⟩

/-- Claim C6 (confirmed): in both folds, a line that fails structural parsing
is skipped and every line around it is folded exactly as if the bad line were
absent; no malformed line aborts the stream. -/
theorem C6_malformed_skipped (xs ys : List RawLine) :
    parse_event_spine (LogFile.content (xs ++ RawLine.malformed :: ys))
      = parse_event_spine (LogFile.content (xs ++ ys))
    ∧ parse_router_intents (LogFile.content (xs ++ RawLine.malformed :: ys))
      = parse_router_intents (LogFile.content (xs ++ ys)) := by
  have hstep : ∀ st : SpineState, spineStep st RawLine.malformed = st := fun _ => rfl
  have histep : ∀ st : IntentState, intentStep st RawLine.malformed = st := fun _ => rfl
  have h1 : foldSpine (xs ++ RawLine.malformed :: ys) = foldSpine (xs ++ ys) := by
    unfold foldSpine
    rw [List.foldl_append, List.foldl_append, List.foldl_cons, hstep]
  have h2 : foldIntents (xs ++ RawLine.malformed :: ys) = foldIntents (xs ++ ys) := by
    unfold foldIntents
    rw [List.foldl_append, List.foldl_append, List.foldl_cons, histep]
  constructor
  · show spineFolded (foldSpine _) = spineFolded (foldSpine _)
    rw [h1]
  · show (foldIntents _).intents = (foldIntents _).intents
    rw [h2]

/-- Claim C7 (confirmed): an I/O failure opening or reading a log yields an
empty mapping for that fold, and the snapshot pipeline then behaves exactly
as with an empty fold result, keeping whatever the other fold produced. -/
theorem C7_io_failure_empty :
    parse_event_spine LogFile.ioFailure = []
    ∧ parse_router_intents LogFile.ioFailure = []
    ∧ (∀ g : LogFile,
        build_snapshot_entries
          (sortedUnion (alKeys (parse_event_spine LogFile.ioFailure))
            (alKeys (parse_router_intents g)))
          (parse_event_spine LogFile.ioFailure) (parse_router_intents g)
        = build_snapshot_entries
          (sortedUnion (alKeys ([] : SpineDict)) (alKeys (parse_router_intents g)))
          ([] : SpineDict) (parse_router_intents g))
    ∧ (∀ f : LogFile,
        build_snapshot_entries
          (sortedUnion (alKeys (parse_event_spine f))
            (alKeys (parse_router_intents LogFile.ioFailure)))
          (parse_event_spine f) (parse_router_intents LogFile.ioFailure)
        = build_snapshot_entries
          (sortedUnion (alKeys (parse_event_spine f)) (alKeys ([] : List (String × JObj))))
          (parse_event_spine f) ([] : List (String × JObj))) :=
  ⟨rfl, rfl, fun _ => rfl, fun _ => rfl⟩

/-- Claim C8 (confirmed): main writes nothing and returns exactly when fewer
than two positional arguments are given or the event-log path does not exist;
in every other case entries are assembled and rendered. -/
theorem C8_arg_validation (argv : List String) (fs : String → PathStatus) :
    mainResult argv fs = none ↔ argv.length < 3 ∨ fs (argv.getD 1 "") = PathStatus.absent := by
  rcases argv with _ | ⟨a, _ | ⟨b, _ | ⟨c, rest⟩⟩⟩
  · simp [mainResult]
  · simp [mainResult]
  · simp [mainResult]
  · cases hfs : fs b with
    | absent => simp [mainResult, hfs, List.getD]
    | present f => simp [mainResult, hfs, List.getD]

/-- Counterexample to claim C1 as stated: two market.regime records for ABC
with the identical timestamp; the retained regime is the one of the EARLIER
record (trend), not of the later record (chop). -/
theorem C1_counterexample :
    (getField (foldSpine [regimeRecord "ABC" "2024-01-01T00:00:00Z" "trend",
        regimeRecord "ABC" "2024-01-01T00:00:00Z" "chop"]).regimes "ABC").map
      (fun e => pyGet e "regime") = some (JValue.str "trend")
    ∧ JValue.str "trend" ≠ JValue.str "chop" := by
  constructor
  · rfl
  · intro h
    injection h with h2
    exact absurd h2 (by decide)

/-- Claim C1 (corrected): in both folds a strict greater-than comparison
guards replacement, so when a later record carries a timestamp identical to
the one already retained for its entity, the fold keeps the EARLIER record
unchanged (for the intent fold, both the stored entry and the tracked
timestamp stay). -/
theorem C1_tie_earlier_wins (l : List RawLine) (r : RawLine) (symbol ts : String)
    (e e2 : JObj) :
    (regimeCand symbol r = some (ts, e2) →
      getField (foldSpine l).regimes symbol = some e →
      pyGet e "timestamp" = JValue.str ts →
      getField (foldSpine (l ++ [r])).regimes symbol = some e)
    ∧ (changeCand symbol r = some (ts, e2) →
      getField (foldSpine l).changes symbol = some e →
      pyGet e "timestamp" = JValue.str ts →
      getField (foldSpine (l ++ [r])).changes symbol = some e)
    ∧ (intentCand symbol r = some (ts, e2) →
      getField (foldIntents l).tss symbol = some ts →
      getField (foldIntents (l ++ [r])).intents symbol
        = getField (foldIntents l).intents symbol) := by
  have htie : strLt ts ts = false := strLt_eq_false.mpr (lt_irrefl ts)
  have hletie : strLe ts ts = true := strLe_iff.mpr le_rfl
  refine ⟨?_, ?_, ?_⟩
  · intro hc hcur hts
    have hfold : foldSpine (l ++ [r]) = spineStep (foldSpine l) r := by
      unfold foldSpine
      rw [List.foldl_append, List.foldl_cons, List.foldl_nil]
    rw [hfold, spineStep_regimes_getField, hc, hcur]
    simp [bestStep, is_newer, hts, htie, hcur]
  · intro hc hcur hts
    have hfold : foldSpine (l ++ [r]) = spineStep (foldSpine l) r := by
      unfold foldSpine
      rw [List.foldl_append, List.foldl_cons, List.foldl_nil]
    rw [hfold, spineStep_changes_getField, hc, hcur]
    simp [bestStep, is_newer, hts, htie, hcur]
  · intro hc hcur
    have hfold : foldIntents (l ++ [r]) = intentStep (foldIntents l) r := by
      unfold foldIntents
      rw [List.foldl_append, List.foldl_cons, List.foldl_nil]
    have hpair := intentStep_getField (foldIntents l) r symbol
    rw [hc, hcur] at hpair
    simp only [intentBestStep, hletie, if_pos rfl] at hpair
    rw [hfold]
    exact (Prod.mk.injEq _ _ _ _).mp hpair |>.1

/-- Witness for the corrected C1: a trend record followed by a chop record
with the identical timestamp in a regime log, and two equal-timestamp intent
records; the earlier data survives in both folds. -/
theorem C1_tie_earlier_wins_witness :
    (regimeCand "ABC" (regimeRecord "ABC" "2024-01-01T00:00:00Z" "chop")
        = some ("2024-01-01T00:00:00Z",
            [("timestamp", JValue.str "2024-01-01T00:00:00Z"), ("regime", JValue.str "chop")])
      ∧ getField (foldSpine [regimeRecord "ABC" "2024-01-01T00:00:00Z" "trend"]).regimes "ABC"
        = some [("timestamp", JValue.str "2024-01-01T00:00:00Z"), ("regime", JValue.str "trend")]
      ∧ pyGet [("timestamp", JValue.str "2024-01-01T00:00:00Z"), ("regime", JValue.str "trend")]
          "timestamp" = JValue.str "2024-01-01T00:00:00Z")
    ∧ getField (foldSpine [regimeRecord "ABC" "2024-01-01T00:00:00Z" "trend",
        regimeRecord "ABC" "2024-01-01T00:00:00Z" "chop"]).regimes "ABC"
      = some [("timestamp", JValue.str "2024-01-01T00:00:00Z"), ("regime", JValue.str "trend")] :=
  ⟨⟨rfl, rfl, rfl⟩,
   (C1_tie_earlier_wins [regimeRecord "ABC" "2024-01-01T00:00:00Z" "trend"]
      (regimeRecord "ABC" "2024-01-01T00:00:00Z" "chop") "ABC" "2024-01-01T00:00:00Z"
      [("timestamp", JValue.str "2024-01-01T00:00:00Z"), ("regime", JValue.str "trend")]
      [("timestamp", JValue.str "2024-01-01T00:00:00Z"), ("regime", JValue.str "chop")]).1
    rfl rfl rfl⟩

theorem sortedUnion_sorted (a b : List String) :
    List.Sorted (fun s t : String => s < t) (sortedUnion a b) := by
  haveI htot : IsTotal String (fun s t => strLe s t = true) :=
    ⟨fun s t => by
      rcases le_total s t with h | h
      · exact Or.inl (strLe_iff.mpr h)
      · exact Or.inr (strLe_iff.mpr h)⟩
  haveI htr : IsTrans String (fun s t => strLe s t = true) :=
    ⟨fun s t u hst htu => strLe_iff.mpr (le_trans (strLe_iff.mp hst) (strLe_iff.mp htu))⟩
  have hs : List.Sorted (fun s t => strLe s t = true) (sortedUnion a b) :=
    List.sorted_insertionSort _ _
  have hnd : (sortedUnion a b).Nodup :=
    (List.perm_insertionSort _ _).nodup_iff.mpr (List.nodup_dedup _)
  have hle : List.Sorted (fun s t : String => s ≤ t) (sortedUnion a b) :=
    hs.imp (fun h => strLe_iff.mp h)
  exact hle.lt_of_le hnd

theorem sortedUnion_mem (a b : List String) (s : String) :
    s ∈ sortedUnion a b ↔ s ∈ a ∨ s ∈ b := by
  unfold sortedUnion
  rw [(List.perm_insertionSort _ _).mem_iff, List.mem_dedup, List.mem_append]

theorem build_entries_symbols (symbols : List String) (spine : SpineDict)
    (intents : List (String × JObj)) :
    (build_snapshot_entries symbols spine intents).map SnapshotEntry.symbol = symbols := by
  unfold build_snapshot_entries
  rw [List.map_map,
    show (SnapshotEntry.symbol ∘ build_snapshot_entry spine intents) = id from
      funext fun s => rfl,
    List.map_id]

/-- Counterexample to claim C2 as stated: a regime log holding one valid
market.regime_change record for XYZ and nothing else. The change map retains
the observation, yet XYZ is absent from the folded output, from the symbol
union, and from the snapshot entries, because src lines 91-98 iterate only
latest_regime_by_symbol. -/
theorem C2_counterexample :
    (getField (foldSpine [changeRecord "XYZ" "2024-01-01T00:00:00Z" "trend" "chop"]).changes
      "XYZ").isSome = true
    ∧ parse_event_spine
        (LogFile.content [changeRecord "XYZ" "2024-01-01T00:00:00Z" "trend" "chop"]) = []
    ∧ sortedUnion
        (alKeys (parse_event_spine
          (LogFile.content [changeRecord "XYZ" "2024-01-01T00:00:00Z" "trend" "chop"])))
        (alKeys (parse_router_intents (LogFile.content []))) = []
    ∧ build_snapshot_entries
        (sortedUnion
          (alKeys (parse_event_spine
            (LogFile.content [changeRecord "XYZ" "2024-01-01T00:00:00Z" "trend" "chop"])))
          (alKeys (parse_router_intents (LogFile.content []))))
        (parse_event_spine
          (LogFile.content [changeRecord "XYZ" "2024-01-01T00:00:00Z" "trend" "chop"]))
        (parse_router_intents (LogFile.content [])) = [] :=
  ⟨rfl, rfl, rfl, rfl⟩

/-- Claim C2 (corrected): the snapshot's entry list carries exactly the union
of the keys of the two folds' OUTPUTS, each exactly once, sorted
lexicographically. The regime fold's output keys are the entities with a
retained regime observation, so an entity for which only a regime-change
observation was retained is dropped unless the intent fold saw it. -/
theorem C2_union_sorted (f g : LogFile) :
    List.Sorted (fun s t : String => s < t)
      (sortedUnion (alKeys (parse_event_spine f)) (alKeys (parse_router_intents g)))
    ∧ (∀ s, s ∈ sortedUnion (alKeys (parse_event_spine f)) (alKeys (parse_router_intents g))
        ↔ s ∈ alKeys (parse_event_spine f) ∨ s ∈ alKeys (parse_router_intents g))
    ∧ (build_snapshot_entries
        (sortedUnion (alKeys (parse_event_spine f)) (alKeys (parse_router_intents g)))
        (parse_event_spine f) (parse_router_intents g)).map SnapshotEntry.symbol
      = sortedUnion (alKeys (parse_event_spine f)) (alKeys (parse_router_intents g)) :=
  ⟨sortedUnion_sorted _ _, fun s => sortedUnion_mem _ _ s, build_entries_symbols _ _ _⟩

/-- Test fixture: an intent line whose body lacks direction and risk_cap. -/
def intentMissingFields : RawLine :=
  RawLine.record (JValue.obj
    [("timestamp", JValue.str "2024-01-01T00:00:00Z"),
     ("symbol", JValue.str "ABC"),
     ("intent", JValue.obj [("size_pct", JValue.num 5)])])

/-- Claim C3 (code bug): evaluating the code on an intent record whose body
lacks direction and risk_cap. The fold stores None for the absent fields
(src lines 132-137), so the assembler's dict.get default at src lines
167-169 never fires and the snapshot entry carries None, not the placeholder
that the assembler's own default and the spec call for. -/
theorem C3_missing_field_eval :
    (build_snapshot_entries
      (sortedUnion (alKeys (parse_event_spine (LogFile.content [])))
        (alKeys (parse_router_intents (LogFile.content [intentMissingFields]))))
      (parse_event_spine (LogFile.content []))
      (parse_router_intents (LogFile.content [intentMissingFields]))).map
        (fun e => (e.symbol, e.direction, e.risk_cap, e.size_pct))
      = [("ABC", JValue.null, JValue.null, JValue.num 5)]
    ∧ JValue.null ≠ JValue.str "—" := by
  constructor
  · rfl
  · intro h
    cases h

/-- Claim C4 (confirmed): both folds are permutation-invariant as mappings
when no two accepted records share an identical timestamp for the same
entity: any line order of the same records yields the same latest-per-entity
result. -/
theorem C4_perm_invariant (l1 l2 m1 m2 : List RawLine)
    (hl : l1.Perm l2) (hm : m1.Perm m2)
    (hdl : distinctTsPerEntity (l1.filterMap spineKeyTs))
    (hdm : distinctTsPerEntity (m1.filterMap intentKeyTs)) :
    (∀ symbol, getField (parse_event_spine (LogFile.content l1)) symbol
        = getField (parse_event_spine (LogFile.content l2)) symbol)
    ∧ (∀ symbol, getField (parse_router_intents (LogFile.content m1)) symbol
        = getField (parse_router_intents (LogFile.content m2)) symbol) := by
  constructor
  · intro symbol
    show getField (spineFolded (foldSpine l1)) symbol
      = getField (spineFolded (foldSpine l2)) symbol
    rw [getField_spineFolded, getField_spineFolded, regimes_perm_eq hl hdl symbol,
      changes_perm_eq hl hdl symbol]
  · intro symbol
    exact intents_perm_eq hm hdm symbol

/-- Test fixture lists for the C4 witness: the same records in two orders. -/
def permSpineA : List RawLine :=
  [regimeRecord "A" "2024-01-01T00:00:00Z" "trend",
   regimeRecord "A" "2024-01-02T00:00:00Z" "chop"]

def permSpineB : List RawLine :=
  [regimeRecord "A" "2024-01-02T00:00:00Z" "chop",
   regimeRecord "A" "2024-01-01T00:00:00Z" "trend"]

def permIntentA : List RawLine :=
  [intentRecord "B" "2024-01-01T00:00:00Z" "long",
   intentRecord "B" "2024-01-02T00:00:00Z" "flat"]

def permIntentB : List RawLine :=
  [intentRecord "B" "2024-01-02T00:00:00Z" "flat",
   intentRecord "B" "2024-01-01T00:00:00Z" "long"]

/-- Witness for C4: two regime records and two intent records with distinct
timestamps, fed in both orders. -/
theorem C4_perm_invariant_witness :
    (permSpineA.Perm permSpineB
      ∧ permIntentA.Perm permIntentB
      ∧ distinctTsPerEntity (permSpineA.filterMap spineKeyTs)
      ∧ distinctTsPerEntity (permIntentA.filterMap intentKeyTs))
    ∧ getField (parse_event_spine (LogFile.content permSpineA)) "A"
      = getField (parse_event_spine (LogFile.content permSpineB)) "A"
    ∧ getField (parse_router_intents (LogFile.content permIntentA)) "B"
      = getField (parse_router_intents (LogFile.content permIntentB)) "B" :=
  ⟨⟨List.Perm.swap _ _ _, List.Perm.swap _ _ _, by decide, by decide⟩,
   (C4_perm_invariant permSpineA permSpineB permIntentA permIntentB
      (List.Perm.swap _ _ _) (List.Perm.swap _ _ _) (by decide) (by decide)).1 "A",
   (C4_perm_invariant permSpineA permSpineB permIntentA permIntentB
      (List.Perm.swap _ _ _) (List.Perm.swap _ _ _) (by decide) (by decide)).2 "B"⟩

/-- Claim C9 (confirmed): the intent fold reads the body from payload first
and falls back to intent, the first map-shaped value winning; it reads the
entity key from the top-level field first and falls back to the field nested
in the chosen body; and a record keyed only by the nested entity field whose
body sits only in the intent field is still folded. -/
theorem C9_intent_fallbacks :
    (∀ (record : JObj) (p : List (String × JValue)),
      pyGet record "payload" = JValue.obj p → resolve_intent record = some p)
    ∧ (∀ (record : JObj) (i : List (String × JValue)),
      (∀ q, pyGet record "payload" ≠ JValue.obj q) →
      pyGet record "intent" = JValue.obj i → resolve_intent record = some i)
    ∧ (∀ (record intent : JObj) (s : String),
      pyGet record "symbol" = JValue.str s → resolve_symbol record intent = some s)
    ∧ (∀ (record intent : JObj) (s : String),
      (∀ q, pyGet record "symbol" ≠ JValue.str q) →
      pyGet intent "symbol" = JValue.str s → resolve_symbol record intent = some s)
    ∧ (∀ (ts : String) (body : JObj) (s : String),
      is_valid_ts (JValue.str ts) = true →
      pyGet body "symbol" = JValue.str s →
      getField (parse_router_intents (LogFile.content
        [RawLine.record (JValue.obj
          [("timestamp", JValue.str ts), ("intent", JValue.obj body)])])) s
        = some (mkIntentEntry body)) := by
  refine ⟨?_, ?_, ?_, ?_, ?_⟩
  · intro record p h
    unfold resolve_intent
    rw [h]
  · intro record i hnp h
    unfold resolve_intent
    rcases hp : pyGet record "payload" with _ | b | n | c | el | fl
    · rw [h]
    · rw [h]
    · rw [h]
    · rw [h]
    · rw [h]
    · exact absurd hp (hnp fl)
  · intro record intent s h
    unfold resolve_symbol
    rw [h]
  · intro record intent s hns h
    unfold resolve_symbol
    rcases hp : pyGet record "symbol" with _ | b | n | c | el | fl
    · rw [h]
    · rw [h]
    · rw [h]
    · exact absurd hp (hns c)
    · rw [h]
    · rw [h]
  · intro ts body s hts hsym
    show getField (foldIntents _).intents s = _
    unfold foldIntents
    rw [List.foldl_cons, List.foldl_nil]
    have h3 : resolve_symbol [("timestamp", JValue.str ts), ("intent", JValue.obj body)]
        body = some s := by
      show (match pyGet body "symbol" with
        | JValue.str s2 => some s2
        | _ => none) = some s
      rw [hsym]
    have hcl : classifyIntent (RawLine.record (JValue.obj
        [("timestamp", JValue.str ts), ("intent", JValue.obj body)]))
        = IntentAction.upd s ts (mkIntentEntry body) := by
      show (if is_valid_ts (JValue.str ts) = true then
          match resolve_symbol [("timestamp", JValue.str ts), ("intent", JValue.obj body)]
              body with
          | some symbol => IntentAction.upd symbol ts (mkIntentEntry body)
          | none => IntentAction.skip
        else IntentAction.skip) = IntentAction.upd s ts (mkIntentEntry body)
      rw [hts, if_pos rfl, h3]
    rw [show intentStep initIntentState (RawLine.record (JValue.obj
        [("timestamp", JValue.str ts), ("intent", JValue.obj body)]))
        = { intents := [(s, mkIntentEntry body)], tss := [(s, ts)] } from by
      unfold intentStep
      rw [hcl]
      rfl]
    simp [getField]

/-- Witness for C9: a record with a map-shaped payload, one with a non-map
payload and a map-shaped intent, records exercising both symbol lookups, and
the end-to-end fold of the nested-symbol intent-body record. -/
theorem C9_intent_fallbacks_witness :
    (pyGet [("payload", JValue.obj [("a", JValue.null)])] "payload"
        = JValue.obj [("a", JValue.null)]
      ∧ resolve_intent [("payload", JValue.obj [("a", JValue.null)])]
        = some [("a", JValue.null)])
    ∧ (pyGet [("payload", JValue.str "x"), ("intent", JValue.obj [])] "intent" = JValue.obj []
      ∧ resolve_intent [("payload", JValue.str "x"), ("intent", JValue.obj [])] = some [])
    ∧ (pyGet [("symbol", JValue.str "TOP")] "symbol" = JValue.str "TOP"
      ∧ resolve_symbol [("symbol", JValue.str "TOP")] [("symbol", JValue.str "NESTED")]
        = some "TOP")
    ∧ (pyGet [("symbol", JValue.str "NESTED")] "symbol" = JValue.str "NESTED"
      ∧ resolve_symbol [] [("symbol", JValue.str "NESTED")] = some "NESTED")
    ∧ (is_valid_ts (JValue.str "2024-01-01T00:00:00Z") = true
      ∧ pyGet [("symbol", JValue.str "ABC"), ("direction", JValue.str "long")] "symbol"
        = JValue.str "ABC"
      ∧ getField (parse_router_intents (LogFile.content
          [RawLine.record (JValue.obj
            [("timestamp", JValue.str "2024-01-01T00:00:00Z"),
             ("intent", JValue.obj
               [("symbol", JValue.str "ABC"), ("direction", JValue.str "long")])])])) "ABC"
        = some (mkIntentEntry [("symbol", JValue.str "ABC"), ("direction", JValue.str "long")])) :=
  ⟨⟨rfl, C9_intent_fallbacks.1 [("payload", JValue.obj [("a", JValue.null)])]
      [("a", JValue.null)] rfl⟩,
   ⟨rfl, C9_intent_fallbacks.2.1 [("payload", JValue.str "x"), ("intent", JValue.obj [])] []
      (fun q h => JValue.noConfusion h) rfl⟩,
   ⟨rfl, C9_intent_fallbacks.2.2.1 [("symbol", JValue.str "TOP")]
      [("symbol", JValue.str "NESTED")] "TOP" rfl⟩,
   ⟨rfl, C9_intent_fallbacks.2.2.2.1 [] [("symbol", JValue.str "NESTED")] "NESTED"
      (fun q h => JValue.noConfusion h) rfl⟩,
   ⟨rfl, rfl, C9_intent_fallbacks.2.2.2.2 "2024-01-01T00:00:00Z"
      [("symbol", JValue.str "ABC"), ("direction", JValue.str "long")] "ABC" rfl rfl⟩⟩

/-- Claim C10 (confirmed): when the event-log path exists but the intent-log
path does not, main is not a no-op: it renders the full snapshot computed
with an empty intent fold, and every entry's posture fields carry the
placeholder. -/
theorem C10_missing_intent_log (prog ev ip : String) (rest : List String)
    (fs : String → PathStatus) (evFile : LogFile)
    (hev : fs ev = PathStatus.present evFile) (hip : fs ip = PathStatus.absent) :
    mainResult (prog :: ev :: ip :: rest) fs
      = some (build_snapshot_entries
          (sortedUnion (alKeys (parse_event_spine evFile))
            (alKeys ([] : List (String × JObj))))
          (parse_event_spine evFile) [])
    ∧ mainResult (prog :: ev :: ip :: rest) fs ≠ none
    ∧ (∀ e ∈ build_snapshot_entries
          (sortedUnion (alKeys (parse_event_spine evFile))
            (alKeys ([] : List (String × JObj))))
          (parse_event_spine evFile) [],
        e.direction = JValue.str "—" ∧ e.size_pct = JValue.str "—"
          ∧ e.risk_cap = JValue.str "—" ∧ e.rationale = JValue.null) := by
  have hmain : mainResult (prog :: ev :: ip :: rest) fs
      = some (build_snapshot_entries
          (sortedUnion (alKeys (parse_event_spine evFile))
            (alKeys ([] : List (String × JObj))))
          (parse_event_spine evFile) []) := by
    simp [mainResult, hev, hip]
  refine ⟨hmain, ?_, ?_⟩
  · rw [hmain]
    exact Option.some_ne_none _
  · intro e he
    unfold build_snapshot_entries at he
    rw [List.mem_map] at he
    obtain ⟨s, _, rfl⟩ := he
    exact ⟨rfl, rfl, rfl, rfl⟩

/-- Witness for C10: a filesystem on which the event log exists with one
regime record and the intent path is absent. -/
theorem C10_missing_intent_log_witness :
    ((fun p => if p = "events.log"
        then PathStatus.present (LogFile.content permSpineA) else PathStatus.absent)
        "events.log" = PathStatus.present (LogFile.content permSpineA)
      ∧ (fun p => if p = "events.log"
        then PathStatus.present (LogFile.content permSpineA) else PathStatus.absent)
        "intents.log" = PathStatus.absent)
    ∧ mainResult ["synthdesk_snapshot.py", "events.log", "intents.log"]
        (fun p => if p = "events.log"
          then PathStatus.present (LogFile.content permSpineA) else PathStatus.absent)
      = some (build_snapshot_entries
          (sortedUnion (alKeys (parse_event_spine (LogFile.content permSpineA)))
            (alKeys ([] : List (String × JObj))))
          (parse_event_spine (LogFile.content permSpineA)) []) :=
  ⟨⟨rfl, rfl⟩,
   (C10_missing_intent_log "synthdesk_snapshot.py" "events.log" "intents.log" []
      (fun p => if p = "events.log"
        then PathStatus.present (LogFile.content permSpineA) else PathStatus.absent)
      (LogFile.content permSpineA) rfl rfl).1⟩
